import Mathlib

/-! Verification of the Gmail archiver: a shallow embedding of
gmail_archiver.py.  Python strings are lists of characters, the filesystem is
a list of (path, contents) pairs, and the IMAP server plus the host clock and
timezone are oracles supplied as inputs.  Definitions mirror the Python
source (and the CPython library routines it calls) statement by statement;
the theorems at the end settle the specification claims. -/

/-- Python strings are sequences of Unicode code points; modelled as lists of characters. -/
abbrev PyStr := List Char

/-- The reserved character class of the regex in sanitize_filename. -/
def reservedChar (c : Char) : Bool :=
  c = '\\' || c = '/' || c = '*' || c = '?' || c = ':' || c = '"' ||
  c = '<' || c = '>' || c = '|'

def sanitizeChar (c : Char) : Char := if reservedChar c then '_' else c

/-- sanitize_filename: re.sub over a single-character class acts pointwise. -/
def sanitize_filename (s : PyStr) : PyStr := s.map sanitizeChar

/-- os.path.join for POSIX with two components. -/
def pathJoin (a b : PyStr) : PyStr :=
  if b.head? = some '/' then b
  else if a = [] || a.getLast? = some '/' then a ++ b
  else a ++ '/' :: b

/-- Decimal digit characters of a natural number, most significant first. -/
def repDigits (n : Nat) : List Char :=
  if _h : n < 10 then [Nat.digitChar n]
  else repDigits (n / 10) ++ [Nat.digitChar (n % 10)]
decreasing_by exact Nat.div_lt_self (by omega) (by omega)

def decVal (l : List Char) : Nat := l.foldl (fun a c => 10 * a + (c.toNat - 48)) 0

/-- Decimal rendering used by Python string interpolation of an int. -/
def pyNatStr (n : Nat) : PyStr := (Nat.repr n).data

/-- The while-not-exists loop shape shared by both collision-resolution loops:
starting at counter k, return the first counter whose candidate the existence
test rejects; fuel bounds the number of iterations. -/
def findFreeIdx (existsTest : Nat → Bool) : Nat → Nat → Option Nat
  | 0, _ => none
  | fuel + 1, k => if existsTest k then findFreeIdx existsTest fuel (k + 1) else some k

/-- str.split() with no separator: helper carrying the current word reversed. -/
def pySplitWsAux : List Char → List Char → List PyStr
  | [], acc => if acc = [] then [] else [acc.reverse]
  | c :: cs, acc =>
    if c.isWhitespace then
      if acc = [] then pySplitWsAux cs [] else acc.reverse :: pySplitWsAux cs []
    else pySplitWsAux cs (c :: acc)

/-- str.split() with no separator: split on whitespace runs, dropping empties. -/
def pySplitWs (s : PyStr) : List PyStr := pySplitWsAux s []

/-- str.split(sep) for a one-character separator, keeping empty pieces. -/
def pySplitChar (sep : Char) : PyStr → List PyStr
  | [] => [[]]
  | c :: cs =>
    let r := pySplitChar sep cs
    if c = sep then [] :: r
    else
      match r with
      | [] => [[c]]
      | p :: ps => (c :: p) :: ps

/-- s[i+1:] where i = s.rfind(c), for c occurring in s. -/
def afterLast (c : Char) (s : PyStr) : PyStr :=
  (s.reverse.takeWhile (fun x => x ≠ c)).reverse

/-- s.find(c) as an option (Python returns -1 when absent). -/
def pyFindIdx (c : Char) (s : PyStr) : Option Nat := s.findIdx? (fun x => x = c)

def pyLower (s : PyStr) : PyStr := s.map Char.toLower

def pyUpper (s : PyStr) : PyStr := s.map Char.toUpper

def pyStrip (s : PyStr) : PyStr :=
  ((s.dropWhile Char.isWhitespace).reverse.dropWhile Char.isWhitespace).reverse

def pyIntDigits (ds : PyStr) : Option Int :=
  if ds = [] then none
  else if ds.all Char.isDigit then some (decVal ds : Int)
  else none

/-- int(s) for decimal strings: optional surrounding whitespace, optional sign,
one or more ASCII digits (the underscore digit-separator feature is not used
by any input this model meets). -/
def pyInt (s : PyStr) : Option Int :=
  match pyStrip s with
  | '+' :: ds => pyIntDigits ds
  | '-' :: ds => (pyIntDigits ds).map (fun v => -v)
  | ds => pyIntDigits ds

def dayNames : List PyStr :=
  ["mon", "tue", "wed", "thu", "fri", "sat", "sun"].map String.data

def monthNames : List PyStr :=
  ["jan", "feb", "mar", "apr", "may", "jun", "jul", "aug", "sep", "oct", "nov", "dec",
   "january", "february", "march", "april", "may", "june", "july", "august",
   "september", "october", "november", "december"].map String.data

def timezoneTable : List (PyStr × Int) :=
  [("UT", 0), ("UTC", 0), ("GMT", 0), ("Z", 0),
   ("AST", -400), ("ADT", -300), ("EST", -500), ("EDT", -400),
   ("CST", -600), ("CDT", -500), ("MST", -700), ("MDT", -600),
   ("PST", -800), ("PDT", -700)].map (fun p => (p.1.data, p.2))

def lookupTz (s : PyStr) : Option Int :=
  (timezoneTable.find? (fun p => p.1 == s)).map Prod.snd

/-- The ten-element result of email._parseaddr._parsedate_tz, keeping only the
fields the archiver reads (wday, yday and isdst are constants 0, 1, -1). -/
structure DateTuple where
  yy : Int
  mon : Int
  dd : Int
  thh : Int
  tmm : Int
  tss : Int
  tz : Option Int
deriving DecidableEq, Repr

/-- email._parseaddr._parsedate_tz from CPython, traced statement by statement.
.ok none is Python returning None; .error models the IndexError that an empty
year token raises past the parser. -/
def parsedate_tz_impl (s : PyStr) : Except Unit (Option DateTuple) := Id.run do
  let mut data := pySplitWs s
  if data = [] then return .ok none
  let d0 := data.headD []
  if d0.getLast? = some ',' || (pyLower d0) ∈ dayNames then
    data := data.tail
  else
    if ',' ∈ d0 then
      data := afterLast ',' d0 :: data.tail
  if data.length = 3 then
    let stuff := pySplitChar '-' (data.headD [])
    if stuff.length = 3 then
      data := stuff ++ data.tail
  if data.length = 4 then
    let s3 := data.getD 3 []
    let i : Int := match pyFindIdx '+' s3 with
      | some i => (i : Int)
      | none =>
        match pyFindIdx '-' s3 with
        | some j => (j : Int)
        | none => -1
    if i > 0 then
      data := data.take 3 ++ [s3.take i.toNat, s3.drop i.toNat]
    else
      data := data ++ [[]]
  if data.length < 5 then return .ok none
  data := data.take 5
  let mut dd := data.getD 0 []
  let mut mm := pyLower (data.getD 1 [])
  let mut yy := data.getD 2 []
  let mut tm := data.getD 3 []
  let mut tz := data.getD 4 []
  if dd = [] || mm = [] || yy = [] then return .ok none
  if mm ∉ monthNames then
    let tmp := mm
    mm := pyLower dd
    dd := tmp
    if mm ∉ monthNames then return .ok none
  let mut monNum : Int := (List.findIdx (fun x => x == mm) monthNames : Nat) + 1
  if monNum > 12 then monNum := monNum - 12
  if dd.getLast? = some ',' then dd := dd.dropLast
  match pyFindIdx ':' yy with
  | some i =>
    if i > 0 then
      let tmp := yy
      yy := tm
      tm := tmp
  | none => pure ()
  if yy.getLast? = some ',' then yy := yy.dropLast
  match yy.head? with
  | none => return .error ()
  | some c =>
    if ¬ c.isDigit then
      let tmp := yy
      yy := tz
      tz := tmp
  if tm.getLast? = some ',' then tm := tm.dropLast
  let tparts := pySplitChar ':' tm
  let mut thh : PyStr := []
  let mut tmm : PyStr := []
  let mut tss : PyStr := []
  if tparts.length = 2 then
    thh := tparts.getD 0 []
    tmm := tparts.getD 1 []
    tss := ['0']
  else if tparts.length = 3 then
    thh := tparts.getD 0 []
    tmm := tparts.getD 1 []
    tss := tparts.getD 2 []
  else if tparts.length = 1 && '.' ∈ tparts.getD 0 [] then
    let t2 := pySplitChar '.' (tparts.getD 0 [])
    if t2.length = 2 then
      thh := t2.getD 0 []
      tmm := t2.getD 1 []
      tss := ['0']
    else if t2.length = 3 then
      thh := t2.getD 0 []
      tmm := t2.getD 1 []
      tss := t2.getD 2 []
    else
      return .ok none
  else
    return .ok none
  match pyInt yy, pyInt dd, pyInt thh, pyInt tmm, pyInt tss with
  | some y0, some d, some hh, some mi, some ss =>
    let mut y := y0
    if y < 100 then
      if y > 68 then y := y + 1900 else y := y + 2000
    let tzU := pyUpper tz
    let mut tzoffset : Option Int := none
    match lookupTz tzU with
    | some v => tzoffset := some v
    | none =>
      match pyInt tzU with
      | some v => tzoffset := some v
      | none => pure ()
      if tzoffset = some 0 && tzU.head? = some '-' then tzoffset := none
    let mut tzsec : Option Int := tzoffset
    match tzoffset with
    | some v =>
      if v ≠ 0 then
        let sign : Int := if v < 0 then -1 else 1
        let a := if v < 0 then -v else v
        tzsec := some (sign * ((a / 100) * 3600 + (a % 100) * 60))
    | none => pure ()
    return .ok (some ⟨y, monNum, d, hh, mi, ss, tzsec⟩)
  | _, _, _, _, _ => return .ok none

/-- email.utils.parsedate_tz: None input is falsy (returns None); a missing
timezone offset in the core result is replaced by 0. -/
def parsedate_tz (h : Option PyStr) : Except Unit (Option DateTuple) :=
  match h with
  | none => .ok none
  | some s =>
    match parsedate_tz_impl s with
    | .error e => .error e
    | .ok none => .ok none
    | .ok (some t) => .ok (some { t with tz := some (t.tz.getD 0) })

/-- Proleptic Gregorian day count of y-m-d relative to 1970-01-01 (Howard
Hinnant's civil-date algorithm; Int division is Euclidean, which agrees with
floor division for the positive divisors used here). -/
def daysFromCivil (y0 m d : Int) : Int :=
  let y := if m ≤ 2 then y0 - 1 else y0
  let era := y / 400
  let yoe := y - era * 400
  let doy := (153 * (m + (if m > 2 then -3 else 9)) + 2) / 5 + d - 1
  let doe := yoe * 365 + yoe / 4 - yoe / 100 + doy
  era * 146097 + doe - 719468

/-- Inverse of daysFromCivil: the (year, month, day) containing the given day
count relative to 1970-01-01. -/
def civilFromDays (z0 : Int) : Int × Int × Int :=
  let z := z0 + 719468
  let era := z / 146097
  let doe := z - era * 146097
  let yoe := (doe - doe / 1460 + doe / 36524 - doe / 146096) / 365
  let y := yoe + era * 400
  let doy := doe - (365 * yoe + yoe / 4 - yoe / 100)
  let mp := (5 * doy + 2) / 153
  let d := doy - (153 * mp + 2) / 5 + 1
  let m := mp + (if mp < 10 then 3 else -9)
  (y + (if m ≤ 2 then 1 else 0), m, d)

/-- calendar.timegm restricted to the six fields it reads: none models the
ValueError datetime.date(year, month, 1) raises for a year outside 1..9999
(the parser always supplies a month in 1..12). -/
def timegm (t : DateTuple) : Option Int :=
  if t.yy < 1 || t.yy > 9999 || t.mon < 1 || t.mon > 12 then none
  else some ((daysFromCivil t.yy t.mon 1 + t.dd - 1) * 86400
             + t.thh * 3600 + t.tmm * 60 + t.tss)

/-- email.utils.mktime_tz on a tuple produced by parsedate_tz: the offset is
never None there, so the result is timegm(data) - data[9]. -/
def mktime_tz (t : DateTuple) : Option Int :=
  (timegm t).map (fun v => v - t.tz.getD 0)

/-- Local civil time produced by datetime.datetime.fromtimestamp. -/
structure Civil where
  year : Int
  month : Int
  day : Int
  hour : Int
  minute : Int
  second : Int
deriving DecidableEq, Repr

/-- datetime.datetime.fromtimestamp: epoch seconds to local civil time, the
host timezone modelled as the fixed UTC offset (in seconds) in force at that
instant; none models the error raised when the local year leaves datetime's
supported range 1..9999. -/
def fromtimestampLocal (offset t : Int) : Option Civil :=
  let loc := t + offset
  let days := loc / 86400
  let secs := loc % 86400
  let c := civilFromDays days
  if c.1 < 1 || c.1 > 9999 then none
  else some ⟨c.1, c.2.1, c.2.2, secs / 3600, secs % 3600 / 60, secs % 60⟩

def pyIntStr (n : Int) : PyStr :=
  if n < 0 then '-' :: pyNatStr (-n).toNat else pyNatStr n.toNat

/-- strftime zero-padding to two digits, as used by %m %d %H %M %S. -/
def pad2 (n : Int) : PyStr := if 0 ≤ n && n < 10 then '0' :: pyIntStr n else pyIntStr n

/-- strftime "%Y-%m" (glibc does not zero-pad %Y). -/
def formatYM (c : Civil) : PyStr := pyIntStr c.year ++ '-' :: pad2 c.month

/-- strftime "%Y-%m-%d_%H-%M-%S". -/
def formatTimestamp (c : Civil) : PyStr :=
  pyIntStr c.year ++ '-' :: pad2 c.month ++ '-' :: pad2 c.day ++ '_' ::
  pad2 c.hour ++ '-' :: pad2 c.minute ++ '-' :: pad2 c.second

/-- get_email_date: .error models an exception (out-of-range year in
calendar.timegm or datetime.fromtimestamp, or a parser crash) propagating to
the caller. -/
def get_email_date (offset : Int) (dateHeader : Option PyStr) : Except Unit PyStr :=
  match parsedate_tz dateHeader with
  | .error e => .error e
  | .ok none => .ok "unknown_date".data
  | .ok (some t) =>
    match mktime_tz t with
    | none => .error ()
    | some ts =>
      match fromtimestampLocal offset ts with
      | none => .error ()
      | some c => .ok (formatTimestamp c)

/-- get_email_folder_path: year-month bucket under base_path, or the
unknown_date bucket; .error as in get_email_date. -/
def get_email_folder_path (offset : Int) (dateHeader : Option PyStr)
    (base_path : PyStr) : Except Unit PyStr :=
  match parsedate_tz dateHeader with
  | .error e => .error e
  | .ok none => .ok (pathJoin base_path "unknown_date".data)
  | .ok (some t) =>
    match mktime_tz t with
    | none => .error ()
    | some ts =>
      match fromtimestampLocal offset ts with
      | none => .error ()
      | some c => .ok (pathJoin base_path (formatYM c))

/-- One entry of email_message.walk(): the fields save_attachments reads.
payload none models get_payload(decode=True) returning None (a part whose
payload is a nested message list, e.g. content type message/rfc822). -/
structure MsgPart where
  maintype : PyStr
  disposition : Option PyStr
  filename : Option PyStr
  payload : Option (List Nat)
deriving DecidableEq, Repr

/-- The slice of a parsed email message the archiver reads: the three headers
and the walk() sequence (whose first element is the message itself). -/
structure EmailMessage where
  dateHeader : Option PyStr
  subjectHeader : Option PyStr
  fromHeader : Option PyStr
  parts : List MsgPart
deriving DecidableEq, Repr

/-- Sender-address extraction of get_unique_filename line 70:
the text between the last less-than sign and the following greater-than sign
when a less-than sign occurs, else the whole header value; then sanitized. -/
def fromAddrOf (m : EmailMessage) : PyStr :=
  let from0 := m.fromHeader.getD "unknown@sender.com".data
  sanitize_filename
    (if '<' ∈ from0 then
      (pySplitChar '>' ((pySplitChar '<' from0).getLastD [])).headD []
    else from0)

/-- Lines 66-75 of get_unique_filename: the base filename before collision
resolution (sanitize subject, then take 50; cap the whole name at 120). -/
def base_filename (offset : Int) (m : EmailMessage) : Except Unit PyStr :=
  match get_email_date offset m.dateHeader with
  | .error e => .error e
  | .ok date =>
    let subject := sanitize_filename (m.subjectHeader.getD "No Subject".data)
    let base := date ++ '_' :: fromAddrOf m ++ '_' :: subject.take 50
    .ok (if base.length > 120 then base.take 120 else base)

def emlExt : PyStr := ".eml".data

/-- Candidate number k of the collision loop: base_k.eml. -/
def emlCand (base : PyStr) (k : Nat) : PyStr := base ++ '_' :: pyNatStr k ++ emlExt

/-- Lines 77-84: the while-os.path.exists loop.  fs is the list of paths of
files existing in the filesystem.  Fuel fs.length + 1 always suffices
(unique_filename_total below), so the none branch is unreachable. -/
def unique_filename (fs : List PyStr) (folder_path base : PyStr) : Option PyStr :=
  let first := base ++ emlExt
  if pathJoin folder_path first ∈ fs then
    (findFreeIdx (fun k => pathJoin folder_path (emlCand base k) ∈ fs)
      (fs.length + 1) 1).map (emlCand base)
  else some first

/-- get_unique_filename: base-name derivation plus collision resolution. -/
def get_unique_filename (offset : Int) (m : EmailMessage) (fs : List PyStr)
    (folder_path : PyStr) : Except Unit (Option PyStr) :=
  (base_filename offset m).map (fun base => unique_filename fs folder_path base)

/-- os.path.splitext for a name without path separators: split at the last
dot, except that a run of leading dots never starts an extension. -/
def splitext (p : PyStr) : PyStr × PyStr :=
  match p.reverse.findIdx? (fun c => c = '.') with
  | none => (p, [])
  | some r =>
    let dotIdx := p.length - 1 - r
    if (p.take dotIdx).any (fun c => c ≠ '.') then (p.take dotIdx, p.drop dotIdx)
    else (p, [])

/-- A file system modelled as the list of (path, contents) of existing files,
most recently created first. -/
abbrev FileSys := List (PyStr × List Nat)

/-- Attachment collision candidate k: stem_k + extension (lines 114-118). -/
def attachCand (fname : PyStr) (k : Nat) : PyStr :=
  (splitext fname).1 ++ '_' :: pyNatStr k ++ (splitext fname).2

/-- Lines 111-118: first full path not taken by an existing file; like the
.eml loop, the first candidate is the sanitized name itself, later ones carry
a counter before the extension. -/
def attachTarget (paths : List PyStr) (apath fname : PyStr) : Option PyStr :=
  let fp0 := pathJoin apath fname
  if fp0 ∈ paths then
    (findFreeIdx (fun k => pathJoin apath (attachCand fname k) ∈ paths)
      (paths.length + 1) 1).map (fun k => pathJoin apath (attachCand fname k))
  else some fp0

/-- Lines 102-107: the lazily created attachment folder path; .error
propagates the exception get_email_date can raise. -/
def attachFolder (offset : Int) (m : EmailMessage) (base_path : PyStr) :
    Except Unit PyStr :=
  match get_email_date offset m.dateHeader with
  | .error e => .error e
  | .ok date =>
    let subject := (sanitize_filename (m.subjectHeader.getD "No Subject".data)).take 30
    .ok (pathJoin (pathJoin base_path "attachments".data)
          (date ++ '_' :: subject ++ "_attachments".data))

/-- Lines 102-107: attachments_path is reused once computed, else built
from the message date and subject (the first branch of the lazy creation). -/
def resolveAttachFolder (offset : Int) (m : EmailMessage) (bp : PyStr)
    (apathState : Option PyStr) : Except Unit PyStr :=
  match apathState with
  | some ap => Except.ok ap
  | none => attachFolder offset m bp

/-- The walk loop of save_attachments (lines 90-123).  The Bool result is
true when an exception escaped the function: either get_email_date raised
while building the folder name, or f.write raised TypeError on a None
payload.  In the latter case open() has already created the file empty, so
the error state carries that empty file; the remaining parts are not
visited.  The fuel-exhausted branch of the collision loop is unreachable
(attachTarget_total) and writes nothing. -/
def save_attachments_go (offset : Int) (m : EmailMessage) (base_path : PyStr) :
    List MsgPart → Option PyStr → FileSys → FileSys × Bool
  | [], _, fs => (fs, false)
  | part :: rest, apathState, fs =>
    if part.maintype = "multipart".data then
      save_attachments_go offset m base_path rest apathState fs
    else if part.disposition = none then
      save_attachments_go offset m base_path rest apathState fs
    else
      match part.filename with
      | none => save_attachments_go offset m base_path rest apathState fs
      | some f =>
        if f = [] then save_attachments_go offset m base_path rest apathState fs
        else
          match resolveAttachFolder offset m base_path apathState with
          | .error _ => (fs, true)
          | .ok ap =>
            match attachTarget (fs.map Prod.fst) ap (sanitize_filename f) with
            | none => (fs, true)
            | some fp =>
              match part.payload with
              | some bytes =>
                save_attachments_go offset m base_path rest (some ap) ((fp, bytes) :: fs)
              | none => ((fp, []) :: fs, true)

/-- save_attachments: walk every part, writing qualifying attachments. -/
def save_attachments (offset : Int) (m : EmailMessage) (base_path : PyStr)
    (fs : FileSys) : FileSys × Bool :=
  save_attachments_go offset m base_path m.parts none fs

/-- Log lines relevant to per-message fault handling: line 198 (fetch status
not OK) and line 225 (any exception in the per-message block), both carrying
the message number. -/
inductive LogLine
  | warnFetchFailed (num : Nat)
  | errorMessage (num : Nat)
deriving DecidableEq, Repr

/-- Outcome of mail.fetch for one message: non-OK status, an exception from
the library, or raw message bytes. -/
inductive FetchOutcome
  | failStatus
  | raised
  | ok (raw : List Nat)
deriving DecidableEq, Repr

/-- Environment behavior for one message of a batch: what fetch returns,
whether parsing raises, the parsed message, and whether the .eml open/write
raises. -/
structure MsgStep where
  num : Nat
  fetch : FetchOutcome
  parseRaised : Bool
  parsed : EmailMessage
  writeRaised : Bool
deriving DecidableEq, Repr

/-- Lines 202-218 after all checks passed: write the raw bytes to the chosen
path, then run save_attachments on the grown file system; an attachment
exception is logged at line 225. -/
def processMsgWrite (offset : Int) (date_folder name : PyStr) (raw : List Nat)
    (st : FileSys × List LogLine) (b : MsgStep) : FileSys × List LogLine :=
  match save_attachments offset b.parsed date_folder
      ((pathJoin date_folder name, raw) :: st.1) with
  | (fs2, raised) =>
    (fs2, if raised then st.2 ++ [.errorMessage b.num] else st.2)

/-- Lines 193-225: one iteration of the per-message loop.  Every failure path
ends in a log line and leaves the remaining messages to the caller (the
try/except at lines 193 and 224 never lets an exception escape).  The
.ok none branch of get_unique_filename is unreachable (unique_filename_total). -/
def processMessage (offset : Int) (folder_path : PyStr)
    (st : FileSys × List LogLine) (b : MsgStep) : FileSys × List LogLine :=
  match b.fetch with
  | .failStatus => (st.1, st.2 ++ [.warnFetchFailed b.num])
  | .raised => (st.1, st.2 ++ [.errorMessage b.num])
  | .ok raw =>
    if b.parseRaised then (st.1, st.2 ++ [.errorMessage b.num])
    else
      match get_email_folder_path offset b.parsed.dateHeader folder_path with
      | .error _ => (st.1, st.2 ++ [.errorMessage b.num])
      | .ok date_folder =>
        match get_unique_filename offset b.parsed (st.1.map Prod.fst) date_folder with
        | .error _ => (st.1, st.2 ++ [.errorMessage b.num])
        | .ok none => (st.1, st.2 ++ [.errorMessage b.num])
        | .ok (some name) =>
          if b.writeRaised then (st.1, st.2 ++ [.errorMessage b.num])
          else processMsgWrite offset date_folder name raw st b

/-- Lines 192-225: the whole batch, messages processed in order. -/
def processBatch (offset : Int) (folder_path : PyStr) (msgs : List MsgStep)
    (st : FileSys × List LogLine) : FileSys × List LogLine :=
  msgs.foldl (processMessage offset folder_path) st

/-- The failure modes that make line 225 log an error for a message: the
fetch (or any later step) raised, parsing raised, the date machinery raised,
or the file write raised. -/
def msgFailsErr (offset : Int) (b : MsgStep) : Prop :=
  b.fetch = .raised ∨
  (∃ raw, b.fetch = .ok raw ∧
    (b.parseRaised = true ∨
     get_email_date offset b.parsed.dateHeader = .error () ∨
     (b.parseRaised = false ∧ b.writeRaised = true)))

/-- Outcome of an IMAP call that returns a status: OK status, non-OK status,
or an exception raised by the library. -/
inductive CallOutcome
  | okStatus
  | failStatus
  | raised
deriving DecidableEq, Repr

/-- Environment behavior for one entry of the folder loop (lines 153-235). -/
structure MailboxRun where
  name : PyStr
  sel : CallOutcome
  search : CallOutcome
  bodyRaised : Bool
deriving DecidableEq, Repr

/-- Observable events of the folder loop, in program order. -/
inductive FolderEvent
  | mkdirEvt (path : PyStr)
  | selectEvt (name : PyStr)
  | searchEvt
  | logSelectSkip (name : PyStr)
  | logSearchSkip (name : PyStr)
  | processEvt
  | logFolderError (name : PyStr)
  | closeEvt
deriving DecidableEq, Repr

/-- Line 157: Python truthiness of include_folders — None and the empty list
are both falsy, so the filter only acts when the list is non-empty. -/
def skipsFolder (include_folders : Option (List PyStr)) (name : PyStr) : Bool :=
  match include_folders with
  | none => false
  | some l => !l.isEmpty && !(decide (name ∈ l))

/-- Lines 153-235, one folder entry: makedirs (line 163) runs before select
(line 168); a non-OK select or search hits a continue (lines 172, 178) that
jumps to the next folder entry, skipping mail.close(); an exception after
select is caught at line 231 and falls through to mail.close() at line 235.
bodyRaised covers an exception escaping the batch loop (the per-message
handler at line 224 makes that rare, but the inner loop machinery itself can
raise). -/
def processFolder (include_folders : Option (List PyStr)) (output_dir : PyStr)
    (fb : MailboxRun) : List FolderEvent :=
  if skipsFolder include_folders fb.name then []
  else
    .mkdirEvt (pathJoin output_dir (sanitize_filename fb.name)) ::
    .selectEvt fb.name ::
    match fb.sel with
    | .raised => [.logFolderError fb.name, .closeEvt]
    | .failStatus => [.logSelectSkip fb.name]
    | .okStatus =>
      .searchEvt ::
      match fb.search with
      | .raised => [.logFolderError fb.name, .closeEvt]
      | .failStatus => [.logSearchSkip fb.name]
      | .okStatus =>
        .processEvt ::
        (if fb.bodyRaised then [.logFolderError fb.name, .closeEvt] else [.closeEvt])

/-- The whole folder loop of archive_gmail (line 153): folder entries
processed in order, events concatenated. -/
def processRun (include_folders : Option (List PyStr)) (output_dir : PyStr)
    (fbs : List MailboxRun) : List FolderEvent :=
  (fbs.map (processFolder include_folders output_dir)).flatten

instance {α : Type} [DecidableEq α] : DecidableEq (Except Unit α) := fun a b =>
  match a, b with
  | .error _, .error _ => isTrue rfl
  | .ok x, .ok y =>
    if h : x = y then isTrue (by rw [h]) else isFalse (fun hc => h (Except.ok.inj hc))
  | .error _, .ok _ => isFalse (fun hc => Except.noConfusion hc)
  | .ok _, .error _ => isFalse (fun hc => Except.noConfusion hc)

/-- The base-name rule in the specification's wording: the subject is
truncated to 50 characters BEFORE sanitization, and the full base name is
truncated to 120 characters unconditionally. -/
def spec_base_filename (offset : Int) (m : EmailMessage) : Except Unit PyStr :=
  match get_email_date offset m.dateHeader with
  | .error e => .error e
  | .ok date =>
    .ok ((date ++ '_' :: fromAddrOf m ++ '_' ::
      sanitize_filename ((m.subjectHeader.getD "No Subject".data).take 50)).take 120)

/-- A well-formed message used by concrete witnesses. -/
def exampleMsg : EmailMessage :=
  ⟨some "Mon, 2 Jan 2023 10:00:00 +0000".data, some "Hello".data,
   some "Alice <alice@example.com>".data, []⟩

/-- A message behavior whose whole pipeline succeeds. -/
def exampleOk (n : Nat) (raw : List Nat) : MsgStep := ⟨n, .ok raw, false, exampleMsg, false⟩

/-- A message behavior whose fetch returns a non-OK status. -/
def exampleBad (n : Nat) : MsgStep := ⟨n, .failStatus, false, exampleMsg, false⟩

/-- A message/rfc822 walk entry carrying a disposition and filename whose
payload get_payload(decode=True) returns as None. -/
def undecodablePart : MsgPart :=
  ⟨"message".data, some "attachment; filename=fwd.eml".data,
   some "fwd.eml".data, none⟩

/-- A following sibling attachment that would decode fine. -/
def decodablePart : MsgPart :=
  ⟨"application".data, some "attachment".data, some "report.pdf".data,
   some [1, 2, 3]⟩

/-- A message whose walk meets the undecodable part before the decodable one. -/
def cexMsg : EmailMessage :=
  ⟨some "Mon, 2 Jan 2023 10:00:00 +0000".data, some "Fwd".data,
   some "alice@example.com".data, [undecodablePart, decodablePart]⟩

/-- A walk entry that one of the continue guards at lines 91-99 skips:
multipart container, no disposition, or no (or empty) filename. -/
def partSkipped (q : MsgPart) : Prop :=
  q.maintype = "multipart".data ∨ q.disposition = none ∨
  q.filename = none ∨ q.filename = some []

instance (q : MsgPart) : Decidable (partSkipped q) := by
  unfold partSkipped
  infer_instance

theorem modelCheck_1 : sanitize_filename "a/b:c".data = "a_b_c".data := by decide

theorem modelCheck_2 : pathJoin "a".data "b.eml".data = "a/b.eml".data := by decide

theorem modelCheck_3 : parsedate_tz (some "Mon, 2 Jan 2023 10:00:00 +0000".data) =
    .ok (some ⟨2023, 1, 2, 10, 0, 0, some 0⟩) := by rfl

theorem modelCheck_4 : parsedate_tz (some "garbled".data) = .ok none := by rfl

theorem modelCheck_5 : parsedate_tz (some "2 Jan 99999 10:00:00 +0000".data) =
    .ok (some ⟨99999, 1, 2, 10, 0, 0, some 0⟩) := by rfl

theorem modelCheck_6 : parsedate_tz (some "Tue, 15 Aug 2000 14:30:05 -0530".data) =
    .ok (some ⟨2000, 8, 15, 14, 30, 5, some (-19800)⟩) := by rfl

theorem modelCheck_7 : daysFromCivil 1970 1 1 = 0 := by rfl

theorem modelCheck_8 : daysFromCivil 2023 1 2 = 19359 := by rfl

theorem modelCheck_9 : civilFromDays 19359 = (2023, 1, 2) := by rfl

theorem modelCheck_10 : civilFromDays 0 = (1970, 1, 1) := by rfl

theorem modelCheck_11 : civilFromDays (-1) = (1969, 12, 31) := by rfl

theorem modelCheck_12 : daysFromCivil 2000 2 29 = 11016 := by rfl

theorem modelCheck_13 : civilFromDays 11016 = (2000, 2, 29) := by rfl

theorem modelCheck_14 : get_email_folder_path 0 (some "Mon, 2 Jan 2023 10:00:00 +0000".data)
    "archive".data = .ok "archive/2023-01".data := by rfl

theorem modelCheck_15 : get_email_folder_path 0 (some "garbled".data) "archive".data =
    .ok "archive/unknown_date".data := by rfl

theorem modelCheck_16 : get_email_folder_path 0 none "archive".data =
    .ok "archive/unknown_date".data := by rfl

theorem modelCheck_17 : get_email_folder_path 0 (some "2 Jan 99999 10:00:00 +0000".data)
    "archive".data = .error () := by rfl

theorem modelCheck_18 : get_email_date 0 (some "Mon, 2 Jan 2023 10:00:00 +0000".data) =
    .ok "2023-01-02_10-00-00".data := by rfl

theorem modelCheck_19 : get_email_date (-3600) (some "Mon, 2 Jan 2023 00:30:00 +0000".data) =
    .ok "2023-01-01_23-30-00".data := by rfl

theorem modelCheck_20 : parsedate_tz (some "2 Jan 23 10:00:00 EST".data) =
    .ok (some ⟨2023, 1, 2, 10, 0, 0, some (-18000)⟩) := by rfl

theorem modelCheck_21 : parsedate_tz (some "1 Jan 2023 10:00 -0000".data) =
    .ok (some ⟨2023, 1, 1, 10, 0, 0, some 0⟩) := by rfl

theorem modelCheck_22 : parsedate_tz (some "Mon, 2 Jan 2023 10:00:00".data) =
    .ok (some ⟨2023, 1, 2, 10, 0, 0, some 0⟩) := by rfl

theorem modelCheck_23 : parsedate_tz (some "02-Jan-2023 10:00:00 +0000".data) =
    .ok (some ⟨2023, 1, 2, 10, 0, 0, some 0⟩) := by rfl

theorem modelCheck_24 : parsedate_tz (some "Jan 2 2023 10:00:00 +0000".data) =
    .ok (some ⟨2023, 1, 2, 10, 0, 0, some 0⟩) := by rfl

theorem modelCheck_25 : unique_filename [] "F".data "A".data = some "A.eml".data := by rfl

theorem modelCheck_26 : unique_filename ["F/A.eml".data] "F".data "A".data = some "A_1.eml".data := by rfl

theorem modelCheck_27 : unique_filename ["F/A.eml".data, "F/A_1.eml".data] "F".data "A".data =
    some "A_2.eml".data := by rfl

theorem modelCheck_28 : splitext "a.b.c".data = ("a.b".data, ".c".data) := by rfl

theorem modelCheck_29 : splitext "bashrc".data = ("bashrc".data, []) := by rfl

theorem modelCheck_30 : splitext ".bashrc".data = (".bashrc".data, []) := by rfl

theorem modelCheck_31 : splitext "report.pdf".data = ("report".data, ".pdf".data) := by rfl

theorem modelCheck_32 : processFolder none "out".data ⟨"INBOX".data, .okStatus, .failStatus, false⟩ =
    [.mkdirEvt "out/INBOX".data, .selectEvt "INBOX".data, .searchEvt,
     .logSearchSkip "INBOX".data] := by rfl

theorem modelCheck_33 : processFolder none "out".data ⟨"INBOX".data, .okStatus, .okStatus, false⟩ =
    [.mkdirEvt "out/INBOX".data, .selectEvt "INBOX".data, .searchEvt,
     .processEvt, .closeEvt] := by rfl

theorem toDigitsCore_eq_repDigits :
    ∀ (fuel n : Nat) (ds : List Char), n < 10 ^ fuel → 1 ≤ fuel →
      Nat.toDigitsCore 10 fuel n ds = repDigits n ++ ds := by
  intro fuel
  induction fuel with
  | zero => intro n ds _ h1; omega
  | succ f ih =>
    intro n ds hlt _
    show (if n / 10 = 0 then Nat.digitChar (n % 10) :: ds
          else Nat.toDigitsCore 10 f (n / 10) (Nat.digitChar (n % 10) :: ds)) = _
    by_cases h : n < 10
    · have hz : n / 10 = 0 := Nat.div_eq_of_lt h
      rw [if_pos hz, repDigits]
      simp [h, Nat.mod_eq_of_lt h]
    · have hz : n / 10 ≠ 0 := by
        intro hc; exact h (by omega)
      rw [if_neg hz]
      have hf1 : 1 ≤ f := by
        by_contra hc
        have : f = 0 := by omega
        subst this
        simp at hlt
        omega
      have hdiv : n / 10 < 10 ^ f := by
        apply Nat.div_lt_of_lt_mul
        calc n < 10 ^ (f + 1) := hlt
        _ = 10 * 10 ^ f := by ring
      rw [ih (n / 10) (Nat.digitChar (n % 10) :: ds) hdiv hf1]
      conv_rhs => rw [repDigits]
      rw [dif_neg h]
      simp

theorem repr_data_eq (n : Nat) : (Nat.repr n).data = repDigits n := by
  show (List.asString (Nat.toDigitsCore 10 (n + 1) n [])).data = _
  have h1 : n < 10 ^ (n + 1) := by
    calc n < 10 ^ n := Nat.lt_pow_self (by omega) n
    _ ≤ 10 ^ (n + 1) := Nat.pow_le_pow_right (by omega) (Nat.le_succ n)
  rw [toDigitsCore_eq_repDigits (n + 1) n [] h1 (by omega)]
  simp [List.asString]

theorem decVal_repDigits (n : Nat) : decVal (repDigits n) = n := by
  induction n using Nat.strong_induction_on with
  | _ n ih =>
    rw [repDigits]
    by_cases h : n < 10
    · rw [dif_pos h]
      show 10 * 0 + ((Nat.digitChar n).toNat - 48) = n
      interval_cases n <;> rfl
    · rw [dif_neg h]
      have hd := ih (n / 10) (Nat.div_lt_self (by omega) (by omega))
      unfold decVal at hd ⊢
      rw [List.foldl_append, hd]
      show 10 * (n / 10) + ((Nat.digitChar (n % 10)).toNat - 48) = n
      have hm : n % 10 < 10 := Nat.mod_lt n (by omega)
      have : (Nat.digitChar (n % 10)).toNat - 48 = n % 10 := by
        interval_cases hh : n % 10 <;> rfl
      rw [this]
      omega

theorem natRepr_injective : Function.Injective Nat.repr := by
  intro a b h
  have ha := decVal_repDigits a
  have hb := decVal_repDigits b
  rw [← repr_data_eq] at ha hb
  rw [h] at ha
  omega

theorem pyNatStr_injective : Function.Injective pyNatStr := by
  intro a b h
  apply natRepr_injective
  exact String.ext h

theorem append_pyNatStr_injective (pre post : PyStr) :
    Function.Injective (fun k => pre ++ pyNatStr k ++ post) := by
  intro a b h
  simp only at h
  rw [List.append_assoc, List.append_assoc] at h
  have h1 := List.append_cancel_left h
  have h2 := List.append_cancel_right h1
  exact pyNatStr_injective h2

theorem findFreeIdx_spec (p : Nat → Bool) :
    ∀ fuel k j, findFreeIdx p fuel k = some j → p j = false := by
  intro fuel
  induction fuel with
  | zero => intro k j h; simp [findFreeIdx] at h
  | succ f ih =>
    intro k j h
    unfold findFreeIdx at h
    by_cases hp : p k
    · rw [if_pos hp] at h; exact ih (k + 1) j h
    · rw [if_neg hp] at h
      cases h
      simpa using hp

theorem findFreeIdx_none (p : Nat → Bool) :
    ∀ fuel k, findFreeIdx p fuel k = none → ∀ i, i < fuel → p (k + i) = true := by
  intro fuel
  induction fuel with
  | zero => intro k _ i hi; omega
  | succ f ih =>
    intro k h i hi
    unfold findFreeIdx at h
    by_cases hp : p k
    · rw [if_pos hp] at h
      rcases Nat.eq_zero_or_pos i with hz | hpos
      · subst hz; simpa using hp
      · have := ih (k + 1) h (i - 1) (by omega)
        have he : k + 1 + (i - 1) = k + i := by omega
        rwa [he] at this
    · rw [if_neg hp] at h; cases h

theorem findFreeIdx_isSome (fs : List PyStr) (candPath : Nat → PyStr)
    (hinj : Function.Injective candPath) (fuel k : Nat) (hf : fs.length < fuel) :
    (findFreeIdx (fun i => candPath i ∈ fs) fuel k).isSome := by
  by_contra hc
  have hn : findFreeIdx (fun i => candPath i ∈ fs) fuel k = none := by
    cases hx : findFreeIdx (fun i => candPath i ∈ fs) fuel k with
    | none => rfl
    | some j => rw [hx] at hc; simp at hc
  have hall := findFreeIdx_none _ fuel k hn
  set L : List PyStr := (List.range fuel).map (fun i => candPath (k + i)) with hL
  have hnd : L.Nodup := by
    apply List.Nodup.map
    · intro a b hab
      have := hinj hab
      omega
    · exact List.nodup_range fuel
  have hsub : L ⊆ fs := by
    intro x hx
    rw [hL] at hx
    simp only [List.mem_map, List.mem_range] at hx
    obtain ⟨i, hi, rfl⟩ := hx
    have := hall i hi
    simpa using this
  have hcard : L.toFinset.card = fuel := by
    rw [List.toFinset_card_of_nodup hnd, hL, List.length_map, List.length_range]
  have hle : L.toFinset ⊆ fs.toFinset := by
    intro x hx
    rw [List.mem_toFinset] at hx ⊢
    exact hsub hx
  have := Finset.card_le_card hle
  have h2 := fs.toFinset_card_le
  omega

theorem pathJoin_inj_of_head (folder x y : PyStr) (hh : x.head? = y.head?)
    (h : pathJoin folder x = pathJoin folder y) : x = y := by
  unfold pathJoin at h
  by_cases hx : y.head? = some '/'
  · rw [if_pos hx, if_pos (hh.trans hx)] at h
    exact h
  · rw [if_neg hx, if_neg (fun hc => hx (hh.symm.trans hc))] at h
    by_cases hf : (folder = [] || folder.getLast? = some '/') = true
    · rw [if_pos hf, if_pos hf] at h
      exact List.append_cancel_left h
    · rw [if_neg hf, if_neg hf] at h
      have := List.append_cancel_left h
      exact List.cons.inj this |>.2

theorem emlCand_head_const (base : PyStr) (a b : Nat) :
    (emlCand base a).head? = (emlCand base b).head? := by
  cases base <;> simp [emlCand]

theorem joined_emlCand_injective (folder base : PyStr) :
    Function.Injective (fun k => pathJoin folder (emlCand base k)) := by
  intro a b h
  simp only at h
  have hx := pathJoin_inj_of_head folder _ _ (emlCand_head_const base a b) h
  have he : ∀ k, emlCand base k = (base ++ ['_']) ++ pyNatStr k ++ emlExt := by
    intro k
    simp [emlCand, List.append_assoc]
  rw [he a, he b] at hx
  exact append_pyNatStr_injective (base ++ ['_']) emlExt hx

theorem unique_filename_total (fs : List PyStr) (folder base : PyStr) :
    ∃ name, unique_filename fs folder base = some name ∧ pathJoin folder name ∉ fs := by
  unfold unique_filename
  by_cases h : pathJoin folder (base ++ emlExt) ∈ fs
  · rw [if_pos h]
    have hs := findFreeIdx_isSome fs (fun k => pathJoin folder (emlCand base k))
      (joined_emlCand_injective folder base) (fs.length + 1) 1 (by omega)
    obtain ⟨j, hj⟩ := Option.isSome_iff_exists.mp hs
    refine ⟨emlCand base j, ?_, ?_⟩
    · rw [hj]; rfl
    · have := findFreeIdx_spec _ _ _ _ hj
      simpa using this
  · exact ⟨base ++ emlExt, by rw [if_neg h], h⟩

theorem unique_filename_not_mem (fs : List PyStr) (folder base name : PyStr)
    (h : unique_filename fs folder base = some name) : pathJoin folder name ∉ fs := by
  obtain ⟨n2, hn2, hmem⟩ := unique_filename_total fs folder base
  rw [h] at hn2
  cases hn2
  exact hmem

theorem attachCand_head_const (fname : PyStr) (a b : Nat) :
    (attachCand fname a).head? = (attachCand fname b).head? := by
  cases h : (splitext fname).1 <;> simp [attachCand, h]

theorem joined_attachCand_injective (apath fname : PyStr) :
    Function.Injective (fun k => pathJoin apath (attachCand fname k)) := by
  intro a b h
  simp only at h
  have hx := pathJoin_inj_of_head apath _ _ (attachCand_head_const fname a b) h
  have he : ∀ k, attachCand fname k =
      ((splitext fname).1 ++ ['_']) ++ pyNatStr k ++ (splitext fname).2 := by
    intro k
    simp [attachCand, List.append_assoc]
  rw [he a, he b] at hx
  exact append_pyNatStr_injective ((splitext fname).1 ++ ['_']) (splitext fname).2 hx

theorem attachTarget_total (paths : List PyStr) (apath fname : PyStr) :
    ∃ fp, attachTarget paths apath fname = some fp ∧ fp ∉ paths := by
  unfold attachTarget
  by_cases h : pathJoin apath fname ∈ paths
  · rw [if_pos h]
    have hs := findFreeIdx_isSome paths (fun k => pathJoin apath (attachCand fname k))
      (joined_attachCand_injective apath fname) (paths.length + 1) 1 (by omega)
    obtain ⟨j, hj⟩ := Option.isSome_iff_exists.mp hs
    refine ⟨pathJoin apath (attachCand fname j), ?_, ?_⟩
    · rw [hj]; rfl
    · have := findFreeIdx_spec _ _ _ _ hj
      simpa using this
  · exact ⟨pathJoin apath fname, by rw [if_neg h], h⟩

theorem attachTarget_not_mem (paths : List PyStr) (apath fname fp : PyStr)
    (h : attachTarget paths apath fname = some fp) : fp ∉ paths := by
  obtain ⟨fp2, hfp2, hmem⟩ := attachTarget_total paths apath fname
  rw [h] at hfp2
  cases hfp2
  exact hmem

theorem save_attachments_go_inv (offset : Int) (m : EmailMessage) (bp : PyStr)
    (P : FileSys → Prop)
    (hins : ∀ fs fp bytes, P fs → fp ∉ fs.map Prod.fst → P ((fp, bytes) :: fs)) :
    ∀ parts ap fs, P fs → P (save_attachments_go offset m bp parts ap fs).1 := by
  intro parts
  induction parts with
  | nil => intro ap fs h; exact h
  | cons part rest ih =>
    intro ap fs h
    unfold save_attachments_go
    split
    · exact ih ap fs h
    · split
      · exact ih ap fs h
      · split
        · exact ih ap fs h
        · rename_i f
          split
          · exact ih ap fs h
          · split
            · exact h
            · rename_i ap2 hap2
              split
              · exact h
              · rename_i fp hfp
                split
                · rename_i bytes hpay
                  exact ih (some ap2) ((fp, bytes) :: fs)
                    (hins fs fp bytes h (attachTarget_not_mem _ _ _ _ hfp))
                · exact hins fs fp [] h (attachTarget_not_mem _ _ _ _ hfp)

theorem get_unique_not_mem (offset : Int) (m : EmailMessage) (fs : List PyStr)
    (df name : PyStr)
    (h : get_unique_filename offset m fs df = .ok (some name)) :
    pathJoin df name ∉ fs := by
  unfold get_unique_filename at h
  cases hb : base_filename offset m with
  | error e => rw [hb] at h; simp [Except.map] at h
  | ok base =>
    rw [hb] at h
    simp only [Except.map, Except.ok.injEq] at h
    exact unique_filename_not_mem _ _ _ _ h

theorem processMessage_inv (offset : Int) (fpth : PyStr) (P : FileSys → Prop)
    (hins : ∀ fs fp bytes, P fs → fp ∉ fs.map Prod.fst → P ((fp, bytes) :: fs))
    (st : FileSys × List LogLine) (b : MsgStep) (h : P st.1) :
    P (processMessage offset fpth st b).1 := by
  cases hf : b.fetch with
  | failStatus => simpa [processMessage, hf] using h
  | raised => simpa [processMessage, hf] using h
  | ok raw =>
    by_cases hp : b.parseRaised
    · simpa [processMessage, hf, hp] using h
    · cases hdf : get_email_folder_path offset b.parsed.dateHeader fpth with
      | error e => simpa [processMessage, hf, hp, hdf] using h
      | ok df =>
        cases huf : get_unique_filename offset b.parsed (st.1.map Prod.fst) df with
        | error e => simpa [processMessage, hf, hp, hdf, huf] using h
        | ok o =>
          cases o with
          | none => simpa [processMessage, hf, hp, hdf, huf] using h
          | some name =>
            by_cases hw : b.writeRaised
            · simpa [processMessage, hf, hp, hdf, huf, hw] using h
            · have hred : processMessage offset fpth st b =
                  processMsgWrite offset df name raw st b := by
                simp [processMessage, hf, hp, hdf, huf, hw]
              rw [hred]
              have hP : P (save_attachments offset b.parsed df
                  ((pathJoin df name, raw) :: st.1)).1 :=
                save_attachments_go_inv offset b.parsed df P hins b.parsed.parts none _
                  (hins st.1 _ raw h (get_unique_not_mem offset b.parsed _ df name huf))
              unfold processMsgWrite
              exact hP

theorem processBatch_inv (offset : Int) (fpth : PyStr) (P : FileSys → Prop)
    (hins : ∀ fs fp bytes, P fs → fp ∉ fs.map Prod.fst → P ((fp, bytes) :: fs)) :
    ∀ (msgs : List MsgStep) (st : FileSys × List LogLine), P st.1 →
      P (processBatch offset fpth msgs st).1 := by
  intro msgs
  induction msgs with
  | nil => intro st h; exact h
  | cons b rest ih =>
    intro st h
    exact ih _ (processMessage_inv offset fpth P hins st b h)

theorem except_unit_cases {α : Type} (e : Except Unit α) :
    e = .error () ∨ ∃ a, e = .ok a := by
  cases e with
  | error u => cases u; exact Or.inl rfl
  | ok a => exact Or.inr ⟨a, rfl⟩

theorem folder_path_err_iff (offset : Int) (d : Option PyStr) (base : PyStr) :
    get_email_folder_path offset d base = .error () ↔
    get_email_date offset d = .error () := by
  unfold get_email_folder_path get_email_date
  cases hq : parsedate_tz d with
  | error e => simp [hq]
  | ok o =>
    cases o with
    | none => simp [hq]
    | some t =>
      cases hm : mktime_tz t with
      | none => simp [hq, hm]
      | some ts =>
        cases hl : fromtimestampLocal offset ts with
        | none => simp [hq, hm, hl]
        | some c => simp [hq, hm, hl]

theorem processMessage_logs_append (offset : Int) (fpth : PyStr)
    (st : FileSys × List LogLine) (b : MsgStep) :
    ∃ t, (processMessage offset fpth st b).2 = st.2 ++ t := by
  cases hf : b.fetch with
  | failStatus => exact ⟨[.warnFetchFailed b.num], by simp [processMessage, hf]⟩
  | raised => exact ⟨[.errorMessage b.num], by simp [processMessage, hf]⟩
  | ok raw =>
    by_cases hp : b.parseRaised
    · exact ⟨[.errorMessage b.num], by simp [processMessage, hf, hp]⟩
    · cases hdf : get_email_folder_path offset b.parsed.dateHeader fpth with
      | error e => exact ⟨[.errorMessage b.num], by simp [processMessage, hf, hp, hdf]⟩
      | ok df =>
        cases huf : get_unique_filename offset b.parsed (st.1.map Prod.fst) df with
        | error e => exact ⟨[.errorMessage b.num], by simp [processMessage, hf, hp, hdf, huf]⟩
        | ok o =>
          cases o with
          | none => exact ⟨[.errorMessage b.num], by simp [processMessage, hf, hp, hdf, huf]⟩
          | some name =>
            by_cases hw : b.writeRaised
            · exact ⟨[.errorMessage b.num], by simp [processMessage, hf, hp, hdf, huf, hw]⟩
            · have hred : processMessage offset fpth st b =
                  processMsgWrite offset df name raw st b := by
                simp [processMessage, hf, hp, hdf, huf, hw]
              rw [hred]
              unfold processMsgWrite
              by_cases hr : (save_attachments offset b.parsed df
                  ((pathJoin df name, raw) :: st.1)).2
              · exact ⟨[.errorMessage b.num], by simp [hr]⟩
              · refine ⟨[], by simp [hr]⟩

theorem processBatch_logs_mono (offset : Int) (fpth : PyStr) :
    ∀ (msgs : List MsgStep) (st : FileSys × List LogLine) (l : LogLine),
      l ∈ st.2 → l ∈ (processBatch offset fpth msgs st).2 := by
  intro msgs
  induction msgs with
  | nil => intro st l h; exact h
  | cons b rest ih =>
    intro st l h
    apply ih
    obtain ⟨t, ht⟩ := processMessage_logs_append offset fpth st b
    rw [ht]
    exact List.mem_append_left t h

theorem processBatch_mem_mono (offset : Int) (fpth : PyStr)
    (msgs : List MsgStep) (st : FileSys × List LogLine) :
    ∀ x ∈ st.1, x ∈ (processBatch offset fpth msgs st).1 :=
  fun x hx => processBatch_inv offset fpth (fun fs => x ∈ fs)
    (fun _ _ _ h _ => List.mem_cons_of_mem _ h) msgs st hx

theorem processMessage_write_mem (offset : Int) (fpth : PyStr)
    (st : FileSys × List LogLine) (b : MsgStep) (raw : List Nat)
    (hf : b.fetch = .ok raw) (hp : b.parseRaised = false) (hw : b.writeRaised = false)
    (df : PyStr) (hdf : get_email_folder_path offset b.parsed.dateHeader fpth = .ok df) :
    ∃ name, (pathJoin df name, raw) ∈ (processMessage offset fpth st b).1 := by
  have hged : get_email_date offset b.parsed.dateHeader ≠ .error () := by
    intro hc
    rw [(folder_path_err_iff offset _ fpth).mpr hc] at hdf
    cases hdf
  obtain ⟨date, hdate⟩ : ∃ s, get_email_date offset b.parsed.dateHeader = .ok s := by
    rcases except_unit_cases (get_email_date offset b.parsed.dateHeader) with h1 | h1
    · exact absurd h1 hged
    · exact h1
  obtain ⟨base, hbase⟩ : ∃ base, base_filename offset b.parsed = .ok base := by
    unfold base_filename
    rw [hdate]
    exact ⟨_, rfl⟩
  obtain ⟨name, hname, hnm⟩ := unique_filename_total (st.1.map Prod.fst) df base
  have huf : get_unique_filename offset b.parsed (st.1.map Prod.fst) df =
      .ok (some name) := by
    unfold get_unique_filename
    rw [hbase]
    simp [Except.map, hname]
  refine ⟨name, ?_⟩
  have hred : processMessage offset fpth st b =
      processMsgWrite offset df name raw st b := by
    simp [processMessage, hf, hp, hdf, huf, hw]
  rw [hred]
  unfold processMsgWrite
  exact save_attachments_go_inv offset b.parsed df
    (fun fs => (pathJoin df name, raw) ∈ fs)
    (fun _ _ _ hmem _ => List.mem_cons_of_mem _ hmem) b.parsed.parts none _
    (List.mem_cons_self _ _)

theorem processBatch_write (offset : Int) (fpth : PyStr) :
    ∀ (msgs : List MsgStep) (st : FileSys × List LogLine) (b : MsgStep),
      b ∈ msgs → ∀ raw, b.fetch = .ok raw → b.parseRaised = false →
      b.writeRaised = false →
      get_email_date offset b.parsed.dateHeader ≠ .error () →
      ∃ p, (p, raw) ∈ (processBatch offset fpth msgs st).1 := by
  intro msgs
  induction msgs with
  | nil => intro st b hb; cases hb
  | cons b0 rest ih =>
    intro st b hb raw hf hp hw hd
    rcases List.mem_cons.mp hb with rfl | hbr
    · obtain ⟨df, hdf⟩ : ∃ df,
          get_email_folder_path offset b.parsed.dateHeader fpth = .ok df := by
        rcases except_unit_cases (get_email_folder_path offset b.parsed.dateHeader fpth)
          with h1 | h1
        · exact absurd ((folder_path_err_iff offset _ fpth).mp h1) hd
        · exact h1
      obtain ⟨name, hmem⟩ := processMessage_write_mem offset fpth st b raw hf hp hw df hdf
      exact ⟨pathJoin df name, processBatch_mem_mono offset fpth rest _ _ hmem⟩
    · exact ih _ b hbr raw hf hp hw hd

theorem processMessage_log_fetchFail (offset : Int) (fpth : PyStr)
    (st : FileSys × List LogLine) (b : MsgStep) (h : b.fetch = .failStatus) :
    LogLine.warnFetchFailed b.num ∈ (processMessage offset fpth st b).2 := by
  simp [processMessage, h]

theorem processMessage_log_err (offset : Int) (fpth : PyStr)
    (st : FileSys × List LogLine) (b : MsgStep) (h : msgFailsErr offset b) :
    LogLine.errorMessage b.num ∈ (processMessage offset fpth st b).2 := by
  rcases h with hr | ⟨raw, hf, hcase⟩
  · simp [processMessage, hr]
  · rcases hcase with hp | hd | ⟨hp, hw⟩
    · simp [processMessage, hf, hp]
    · have hdf : get_email_folder_path offset b.parsed.dateHeader fpth = .error () :=
        (folder_path_err_iff offset _ fpth).mpr hd
      by_cases hp2 : b.parseRaised
      · simp [processMessage, hf, hp2]
      · simp [processMessage, hf, hp2, hdf]
    · cases hdf : get_email_folder_path offset b.parsed.dateHeader fpth with
      | error e => simp [processMessage, hf, hp, hdf]
      | ok df =>
        cases huf : get_unique_filename offset b.parsed (st.1.map Prod.fst) df with
        | error e => simp [processMessage, hf, hp, hdf, huf]
        | ok o =>
          cases o with
          | none => simp [processMessage, hf, hp, hdf, huf]
          | some name => simp [processMessage, hf, hp, hdf, huf, hw]

theorem processBatch_log_fetchFail (offset : Int) (fpth : PyStr) :
    ∀ (msgs : List MsgStep) (st : FileSys × List LogLine) (b : MsgStep),
      b ∈ msgs → b.fetch = .failStatus →
      LogLine.warnFetchFailed b.num ∈ (processBatch offset fpth msgs st).2 := by
  intro msgs
  induction msgs with
  | nil => intro st b hb; cases hb
  | cons b0 rest ih =>
    intro st b hb h
    rcases List.mem_cons.mp hb with rfl | hbr
    · exact processBatch_logs_mono offset fpth rest _ _
        (processMessage_log_fetchFail offset fpth st b h)
    · exact ih _ b hbr h

theorem processBatch_log_err (offset : Int) (fpth : PyStr) :
    ∀ (msgs : List MsgStep) (st : FileSys × List LogLine) (b : MsgStep),
      b ∈ msgs → msgFailsErr offset b →
      LogLine.errorMessage b.num ∈ (processBatch offset fpth msgs st).2 := by
  intro msgs
  induction msgs with
  | nil => intro st b hb; cases hb
  | cons b0 rest ih =>
    intro st b hb h
    rcases List.mem_cons.mp hb with rfl | hbr
    · exact processBatch_logs_mono offset fpth rest _ _
        (processMessage_log_err offset fpth st b h)
    · exact ih _ b hbr h

theorem fromtimestampLocal_eq (offset t : Int) :
    fromtimestampLocal offset t =
      (if (civilFromDays ((t + offset) / 86400)).1 < 1 ||
          (civilFromDays ((t + offset) / 86400)).1 > 9999 then none
       else some ⟨(civilFromDays ((t + offset) / 86400)).1,
                  (civilFromDays ((t + offset) / 86400)).2.1,
                  (civilFromDays ((t + offset) / 86400)).2.2,
                  (t + offset) % 86400 / 3600,
                  (t + offset) % 86400 % 3600 / 60,
                  (t + offset) % 86400 % 60⟩) := rfl

theorem localYM_jan2023 (offset : Int) (h1 : -50400 ≤ offset) (h2 : offset ≤ 50400) :
    ∃ c, fromtimestampLocal offset 1672653600 = some c ∧
      c.year = 2023 ∧ c.month = 1 := by
  have hdays : (1672653600 + offset) / 86400 = 19358 ∨
      (1672653600 + offset) / 86400 = 19359 ∨
      (1672653600 + offset) / 86400 = 19360 := by omega
  rcases hdays with h | h | h <;>
    rw [fromtimestampLocal_eq, h] <;>
    rw [if_neg (by decide)] <;>
    exact ⟨_, rfl, rfl, rfl⟩

/-- C6, counterexample: the Date header "2 Jan 99999 10:00:00 +0000" parses
(parsedate_tz returns a tuple), yet get_email_folder_path neither returns a
year-month bucket nor unknown_date: datetime.date inside calendar.timegm
raises ValueError for year 99999, and the exception leaves the function. -/
theorem claim_C6_counterexample :
    parsedate_tz (some "2 Jan 99999 10:00:00 +0000".data) =
      .ok (some ⟨99999, 1, 2, 10, 0, 0, some 0⟩) ∧
    get_email_folder_path 0 (some "2 Jan 99999 10:00:00 +0000".data)
      "archive".data = .error () := ⟨rfl, rfl⟩

/-- C6, amended: whenever the Date header parses AND the parsed timestamp is
representable (year within datetime's 1..9999 range both as parsed and after
conversion to local time), the function returns output_root/YYYY-MM; the
example header maps to the 2023-01 bucket for every real-world local offset;
a missing or unparsable header yields output_root/unknown_date. -/
theorem claim_C6 :
    (∀ (offset : Int) (d : Option PyStr) (base : PyStr) (t : DateTuple)
       (ts : Int) (c : Civil),
       parsedate_tz d = .ok (some t) → mktime_tz t = some ts →
       fromtimestampLocal offset ts = some c →
       get_email_folder_path offset d base = .ok (pathJoin base (formatYM c))) ∧
    (∀ (offset : Int) (d : Option PyStr) (base : PyStr),
       parsedate_tz d = .ok none →
       get_email_folder_path offset d base = .ok (pathJoin base "unknown_date".data)) ∧
    (∀ offset : Int, -50400 ≤ offset → offset ≤ 50400 →
       get_email_folder_path offset (some "Mon, 2 Jan 2023 10:00:00 +0000".data)
         "archive".data = .ok "archive/2023-01".data) ∧
    get_email_folder_path 0 (some "garbled".data) "archive".data =
      .ok "archive/unknown_date".data ∧
    (∀ (offset : Int) (base : PyStr),
       get_email_folder_path offset none base =
         .ok (pathJoin base "unknown_date".data)) := by
  refine ⟨?_, ?_, ?_, rfl, fun _ _ => rfl⟩
  · intro offset d base t ts c hp hm hl
    simp [get_email_folder_path, hp, hm, hl]
  · intro offset d base hp
    simp [get_email_folder_path, hp]
  · intro offset h1 h2
    obtain ⟨c, hc, hy, hmo⟩ := localYM_jan2023 offset h1 h2
    have hp : parsedate_tz (some "Mon, 2 Jan 2023 10:00:00 +0000".data) =
        .ok (some ⟨2023, 1, 2, 10, 0, 0, some 0⟩) := rfl
    have hm : mktime_tz ⟨2023, 1, 2, 10, 0, 0, some 0⟩ = some 1672653600 := rfl
    simp only [get_email_folder_path, hp, hm, hc]
    have hfmt : formatYM c = "2023-01".data := by
      unfold formatYM
      rw [hy, hmo]
      rfl
    rw [hfmt]
    rfl

/-- C6, witness for the amended theorem: the example header lands in the
2023-01 bucket at local offset 0. -/
theorem claim_C6_witness :
    get_email_folder_path 0 (some "Mon, 2 Jan 2023 10:00:00 +0000".data)
      "archive".data = .ok "archive/2023-01".data :=
  claim_C6.2.2.1 0 (by norm_num) (by norm_num)

theorem base_cap_eq (b : PyStr) :
    (if b.length > 120 then b.take 120 else b) = b.take 120 := by
  by_cases hl : b.length > 120
  · rw [if_pos hl]
  · rw [if_neg hl]
    exact (List.take_of_length_le (by omega)).symm

theorem sanitizeChar_not_reserved (c : Char) :
    reservedChar (sanitizeChar c) = false := by
  unfold sanitizeChar
  by_cases h : reservedChar c
  · rw [if_pos h]; rfl
  · rw [if_neg h]; simpa using h

/-- C7: the base filename equals formatted-timestamp_sender_subject-prefix
exactly as the specification describes it: sanitization is a pointwise
character map, so sanitizing then truncating the subject at 50 equals
truncating then sanitizing, and conditionally truncating at 120 only above
length 120 equals always taking 120. -/
theorem claim_C7 : ∀ (offset : Int) (m : EmailMessage),
    base_filename offset m = spec_base_filename offset m := by
  intro offset m
  unfold base_filename spec_base_filename
  cases hd : get_email_date offset m.dateHeader with
  | error e => rfl
  | ok date =>
    simp only [Except.ok.injEq]
    have h50 : sanitize_filename ((m.subjectHeader.getD "No Subject".data).take 50) =
        (sanitize_filename (m.subjectHeader.getD "No Subject".data)).take 50 := by
      unfold sanitize_filename
      exact List.map_take _ _ _
    rw [h50]
    exact base_cap_eq _

/-- C8: sanitize_filename replaces exactly the reserved characters with an
underscore and nothing else: the output never contains a reserved character,
lengths and positions are preserved, the empty string maps to itself, a
string free of reserved characters is a fixed point, and the function is
idempotent. -/
theorem claim_C8 :
    (∀ s : PyStr, ∀ c ∈ sanitize_filename s, reservedChar c = false) ∧
    (∀ s : PyStr, (sanitize_filename s).length = s.length) ∧
    (∀ (s : PyStr) (i : Nat), (sanitize_filename s)[i]? = (s[i]?).map sanitizeChar) ∧
    sanitize_filename [] = [] ∧
    (∀ s : PyStr, (∀ c ∈ s, reservedChar c = false) → sanitize_filename s = s) ∧
    (∀ s : PyStr, sanitize_filename (sanitize_filename s) = sanitize_filename s) := by
  refine ⟨?_, ?_, ?_, rfl, ?_, ?_⟩
  · intro s c hc
    obtain ⟨a, _, rfl⟩ := List.mem_map.mp hc
    unfold sanitizeChar
    by_cases h : reservedChar a
    · rw [if_pos h]; rfl
    · rw [if_neg h]; simpa using h
  · intro s
    exact List.length_map s sanitizeChar
  · intro s i
    exact List.getElem?_map sanitizeChar s i
  · intro s h
    have hc : ∀ c ∈ s, sanitizeChar c = c := by
      intro c hcs
      unfold sanitizeChar
      rw [if_neg (by simp [h c hcs])]
    unfold sanitize_filename
    exact (List.map_congr_left hc).trans (List.map_id s)
  · intro s
    unfold sanitize_filename
    rw [List.map_map]
    apply List.map_congr_left
    intro a _
    show sanitizeChar (sanitizeChar a) = sanitizeChar a
    rw [sanitizeChar]
    rw [if_neg (by simp [sanitizeChar_not_reserved])]

/-- C8, witness: a concrete string with reserved characters is cleaned, and a
concrete clean string is a fixed point. -/
theorem claim_C8_witness :
    sanitize_filename "clean-name.txt".data = "clean-name.txt".data :=
  claim_C8.2.2.2.2.1 "clean-name.txt".data (by decide)

/-- C9: an empty include_folders list is falsy in Python, so the inclusion
filter is disabled: with the empty allow-list every mailbox passes, and the
folder loop behaves exactly as if no allow-list had been supplied. -/
theorem claim_C9 :
    (∀ name : PyStr, skipsFolder (some []) name = false) ∧
    (∀ name : PyStr, skipsFolder (some []) name = skipsFolder none name) ∧
    (∀ (out : PyStr) (fb : MailboxRun),
      processFolder (some []) out fb = processFolder none out fb) :=
  ⟨fun _ => rfl, fun _ => rfl, fun _ _ => rfl⟩

/-- C1: the collision loop of get_unique_filename never returns a filename
whose path exists: for every filesystem it yields some free name; with
A.eml taken it yields A_1.eml, then A_2.eml; and across a sequential run the
paths of all files ever written stay pairwise distinct. -/
theorem claim_C1 :
    (∀ (fs : List PyStr) (folder base : PyStr),
       ∃ name, unique_filename fs folder base = some name ∧ pathJoin folder name ∉ fs) ∧
    (unique_filename [] "F".data "A".data = some "A.eml".data ∧
     unique_filename ["F/A.eml".data] "F".data "A".data = some "A_1.eml".data ∧
     unique_filename ["F/A.eml".data, "F/A_1.eml".data] "F".data "A".data =
       some "A_2.eml".data) ∧
    (∀ (offset : Int) (fpth : PyStr) (msgs : List MsgStep)
       (st : FileSys × List LogLine),
       (st.1.map Prod.fst).Nodup →
       ((processBatch offset fpth msgs st).1.map Prod.fst).Nodup) := by
  refine ⟨unique_filename_total, ⟨rfl, rfl, rfl⟩, ?_⟩
  intro offset fpth msgs st h
  exact processBatch_inv offset fpth (fun fs => (fs.map Prod.fst).Nodup)
    (fun fs fp bytes hnd hnm => List.nodup_cons.mpr ⟨hnm, hnd⟩) msgs st h

/-- C1, witness: a two-message batch with identical headers (hence identical
base names) writes files with pairwise distinct paths. -/
theorem claim_C1_witness :
    ((processBatch 0 "out".data [exampleOk 1 [1], exampleOk 2 [2]]
        ([], [])).1.map Prod.fst).Nodup :=
  claim_C1.2.2 0 "out".data [exampleOk 1 [1], exampleOk 2 [2]] ([], [])
    List.nodup_nil

/-- C2: each message of a batch is handled independently: whatever the other
behaviors, a message whose own pipeline succeeds has its raw bytes written,
a fetch with non-OK status is logged with the message number, and any raising
step (fetch, parse, date machinery, file write) is logged with the message
number; the fold never aborts. -/
theorem claim_C2 :
    ∀ (offset : Int) (fpth : PyStr) (msgs : List MsgStep)
      (st : FileSys × List LogLine) (b : MsgStep), b ∈ msgs →
      (∀ raw, b.fetch = .ok raw → b.parseRaised = false → b.writeRaised = false →
        get_email_date offset b.parsed.dateHeader ≠ .error () →
        ∃ p, (p, raw) ∈ (processBatch offset fpth msgs st).1) ∧
      (b.fetch = .failStatus →
        LogLine.warnFetchFailed b.num ∈ (processBatch offset fpth msgs st).2) ∧
      (msgFailsErr offset b →
        LogLine.errorMessage b.num ∈ (processBatch offset fpth msgs st).2) := by
  intro offset fpth msgs st b hb
  exact ⟨fun raw hf hp hw hd => processBatch_write offset fpth msgs st b hb raw hf hp hw hd,
         fun h => processBatch_log_fetchFail offset fpth msgs st b hb h,
         fun h => processBatch_log_err offset fpth msgs st b hb h⟩

/-- C2, witness: in a three-message batch whose middle fetch fails, the third
message's bytes are still written and the failure is logged with number 2. -/
theorem claim_C2_witness :
    (∃ p, (p, [7, 7]) ∈ (processBatch 0 "out".data
        [exampleOk 1 [5], exampleBad 2, exampleOk 3 [7, 7]] ([], [])).1) ∧
    LogLine.warnFetchFailed 2 ∈ (processBatch 0 "out".data
        [exampleOk 1 [5], exampleBad 2, exampleOk 3 [7, 7]] ([], [])).2 := by
  constructor
  · exact (claim_C2 0 "out".data _ ([], []) (exampleOk 3 [7, 7])
      (List.mem_cons_of_mem _ (List.mem_cons_of_mem _ (List.mem_cons_self _ _)))).1
      [7, 7] rfl rfl rfl (by decide)
  · exact (claim_C2 0 "out".data _ ([], []) (exampleBad 2)
      (List.mem_cons_of_mem _ (List.mem_cons_self _ _))).2.1 rfl

/-- C5: the .eml file written for a successfully fetched and stored message
holds exactly the raw bytes the fetch returned — the write at line 215 uses
raw_email itself, not anything re-serialized from the parsed message. -/
theorem claim_C5 :
    ∀ (offset : Int) (fpth : PyStr) (st : FileSys × List LogLine) (b : MsgStep)
      (raw : List Nat) (df : PyStr),
      b.fetch = .ok raw → b.parseRaised = false → b.writeRaised = false →
      get_email_folder_path offset b.parsed.dateHeader fpth = .ok df →
      ∃ name, (pathJoin df name, raw) ∈ (processMessage offset fpth st b).1 := by
  intro offset fpth st b raw df hf hp hw hdf
  exact processMessage_write_mem offset fpth st b raw hf hp hw df hdf

/-- C5, witness: a concrete message's stored file carries its fetched bytes. -/
theorem claim_C5_witness :
    ∃ name, (pathJoin "out/2023-01".data name, [9, 8, 7]) ∈
      (processMessage 0 "out".data ([], []) (exampleOk 4 [9, 8, 7])).1 :=
  claim_C5 0 "out".data ([], []) (exampleOk 4 [9, 8, 7]) [9, 8, 7]
    "out/2023-01".data rfl rfl rfl (by decide)

/-- C4, counterexample: a mailbox whose readonly select succeeds but whose
search returns a non-OK status hits the continue at line 178, which jumps to
the next folder entry without reaching mail.close() at line 235: the trace
holds no close event. -/
theorem claim_C4_counterexample :
    FolderEvent.closeEvt ∉
      processFolder none "out".data ⟨"INBOX".data, .okStatus, .failStatus, false⟩ := by
  decide

/-- C4, amended: the selection is closed — as the last action of the folder
iteration, before the next mailbox — whenever select succeeded and the
search did not return a non-OK status: in particular when per-message steps
failed or the batch loop raised.  A search returning non-OK skips the close. -/
theorem claim_C4 :
    ∀ (inc : Option (List PyStr)) (out : PyStr) (fb : MailboxRun),
      skipsFolder inc fb.name = false →
      fb.sel = .okStatus → fb.search ≠ .failStatus →
      FolderEvent.closeEvt ∈ processFolder inc out fb ∧
      (processFolder inc out fb).getLast? = some .closeEvt := by
  intro inc out fb hskip hsel hsearch
  cases hs : fb.search with
  | failStatus => exact absurd hs hsearch
  | raised => constructor <;> simp [processFolder, hskip, hsel, hs]
  | okStatus =>
    by_cases hb : fb.bodyRaised <;> constructor <;>
      simp [processFolder, hskip, hsel, hs, hb]

/-- C4, witness: a cleanly processed mailbox is closed. -/
theorem claim_C4_witness :
    FolderEvent.closeEvt ∈
      processFolder none "out".data ⟨"INBOX".data, .okStatus, .okStatus, false⟩ :=
  (claim_C4 none "out".data ⟨"INBOX".data, .okStatus, .okStatus, false⟩ rfl rfl
    (by decide)).1

/-- C10: for every mailbox that passes the inclusion filter, the local
directory is created before the readonly select is attempted; when select or
search then fails, the trace holds nothing beyond mkdir, select(, search)
and a skip log — the directory remains on disk, empty. -/
theorem claim_C10 :
    ∀ (inc : Option (List PyStr)) (out : PyStr) (fb : MailboxRun),
      skipsFolder inc fb.name = false →
      (∃ rest, processFolder inc out fb =
        .mkdirEvt (pathJoin out (sanitize_filename fb.name)) ::
          .selectEvt fb.name :: rest) ∧
      (fb.sel = .failStatus → processFolder inc out fb =
        [.mkdirEvt (pathJoin out (sanitize_filename fb.name)),
         .selectEvt fb.name, .logSelectSkip fb.name]) ∧
      (fb.sel = .okStatus → fb.search = .failStatus → processFolder inc out fb =
        [.mkdirEvt (pathJoin out (sanitize_filename fb.name)),
         .selectEvt fb.name, .searchEvt, .logSearchSkip fb.name]) := by
  intro inc out fb hskip
  refine ⟨⟨_, by unfold processFolder; rw [if_neg (by simp [hskip])]⟩, ?_, ?_⟩
  · intro hsel
    simp [processFolder, hskip, hsel]
  · intro hsel hsearch
    simp [processFolder, hskip, hsel, hsearch]

/-- C10, witness: a mailbox whose select fails still got its directory
created first, and nothing else happened. -/
theorem claim_C10_witness :
    processFolder none "out".data ⟨"Spam".data, .failStatus, .okStatus, false⟩ =
      [.mkdirEvt "out/Spam".data, .selectEvt "Spam".data,
       .logSelectSkip "Spam".data] :=
  (claim_C10 none "out".data ⟨"Spam".data, .failStatus, .okStatus, false⟩ rfl).2.1 rfl

/-- C3, counterexample: a qualifying part whose payload cannot be decoded is
not skipped: f.write(None) raises TypeError (error flag true), open() has
already created a zero-byte file for it, and the decodable sibling that
follows is never written. -/
theorem claim_C3_counterexample :
    (save_attachments 0 cexMsg "out/2023-01".data []).2 = true ∧
    (save_attachments 0 cexMsg "out/2023-01".data []).1 =
      [("out/2023-01/attachments/2023-01-02_10-00-00_Fwd_attachments/fwd.eml".data,
        [])] := ⟨rfl, rfl⟩

theorem save_attachments_go_aborts (offset : Int) (m : EmailMessage) (bp : PyStr) :
    ∀ (pre : List MsgPart) (ap : Option PyStr) (fs : FileSys) (bad : MsgPart)
      (rest : List MsgPart),
      (∀ q ∈ pre, partSkipped q) → ¬ partSkipped bad → bad.payload = none →
      (save_attachments_go offset m bp (pre ++ bad :: rest) ap fs).2 = true ∧
      ((save_attachments_go offset m bp (pre ++ bad :: rest) ap fs).1 = fs ∨
       ∃ fp, (save_attachments_go offset m bp (pre ++ bad :: rest) ap fs).1 =
         (fp, []) :: fs ∧ fp ∉ fs.map Prod.fst) := by
  intro pre
  induction pre with
  | nil =>
    intro ap fs bad rest _ hq hpay
    rcases not_or.mp hq with ⟨h1, hrest1⟩
    rcases not_or.mp hrest1 with ⟨h2, hrest2⟩
    rcases not_or.mp hrest2 with ⟨h3, h4⟩
    obtain ⟨f, hf⟩ : ∃ f, bad.filename = some f := by
      cases hfn : bad.filename with
      | none => exact absurd hfn h3
      | some f => exact ⟨f, rfl⟩
    have hfne : f ≠ [] := by
      intro hc
      subst hc
      exact h4 hf
    cases har : resolveAttachFolder offset m bp ap with
    | error e =>
      have hred : save_attachments_go offset m bp ([] ++ bad :: rest) ap fs =
          (fs, true) := by
        simp [save_attachments_go, h1, h2, hf, hfne, har]
      rw [hred]
      exact ⟨rfl, Or.inl rfl⟩
    | ok ap2 =>
      obtain ⟨fp, hfp, hnm⟩ := attachTarget_total (fs.map Prod.fst) ap2
        (sanitize_filename f)
      have hred : save_attachments_go offset m bp ([] ++ bad :: rest) ap fs =
          ((fp, []) :: fs, true) := by
        simp [save_attachments_go, h1, h2, hf, hfne, har, hfp, hpay]
      rw [hred]
      exact ⟨rfl, Or.inr ⟨fp, rfl, hnm⟩⟩
  | cons q pre ih =>
    intro ap fs bad rest hpre hq hpay
    have hqskip := hpre q (List.mem_cons_self q pre)
    have hpre2 : ∀ r ∈ pre, partSkipped r := fun r hr =>
      hpre r (List.mem_cons_of_mem q hr)
    have hstep : save_attachments_go offset m bp ((q :: pre) ++ bad :: rest) ap fs =
        save_attachments_go offset m bp (pre ++ bad :: rest) ap fs := by
      rcases hqskip with h | h | h | h
      · simp [save_attachments_go, h]
      · by_cases hm : q.maintype = "multipart".data
        · simp [save_attachments_go, hm]
        · simp [save_attachments_go, hm, h]
      · by_cases hm : q.maintype = "multipart".data
        · simp [save_attachments_go, hm]
        · by_cases hd2 : q.disposition = none
          · simp [save_attachments_go, hm, hd2]
          · simp [save_attachments_go, hm, hd2, h]
      · by_cases hm : q.maintype = "multipart".data
        · simp [save_attachments_go, hm]
        · by_cases hd2 : q.disposition = none
          · simp [save_attachments_go, hm, hd2]
          · simp [save_attachments_go, hm, hd2, h]
    rw [hstep]
    exact ih ap fs bad rest hpre2 hq hpay

/-- C3, amended: when the walk reaches a qualifying part whose payload
decodes to None (all earlier parts being skipped by the guards), f.write
raises TypeError: the error escapes save_attachments (flag true, caught only
by the per-message handler), at most a zero-byte file for the failing part is
left behind, and no later sibling part is extracted. -/
theorem claim_C3 :
    ∀ (offset : Int) (m : EmailMessage) (bp : PyStr) (fs : FileSys)
      (pre : List MsgPart) (bad : MsgPart) (rest : List MsgPart),
      m.parts = pre ++ bad :: rest →
      (∀ q ∈ pre, partSkipped q) → ¬ partSkipped bad → bad.payload = none →
      (save_attachments offset m bp fs).2 = true ∧
      ((save_attachments offset m bp fs).1 = fs ∨
       ∃ fp, (save_attachments offset m bp fs).1 = (fp, []) :: fs ∧
         fp ∉ fs.map Prod.fst) := by
  intro offset m bp fs pre bad rest hparts hpre hq hpay
  unfold save_attachments
  rw [hparts]
  exact save_attachments_go_aborts offset m bp pre none fs bad rest hpre hq hpay

/-- C3, witness for the amended theorem: the concrete two-part message makes
the TypeError escape. -/
theorem claim_C3_witness :
    (save_attachments 0 cexMsg "out/2023-01".data []).2 = true :=
  (claim_C3 0 cexMsg "out/2023-01".data [] [] undecodablePart [decodablePart]
    rfl (fun q hq => absurd hq (List.not_mem_nil q)) (by decide) rfl).1
